import Mathlib

/-!
Verification development for the wallet backend in
`src/WalletBackend/WalletBackend.cpp` (NOX repository).

Bytes are modelled as `List Nat` (each element a byte value).  The external
cryptographic primitives the source calls (the AES-256 block permutation and
the PBKDF2-HMAC-SHA256 key derivation from CryptoPP) are abstracted as
function parameters: a `BlockCipher` pair of keyed block maps, and a `Kdf`
mapping a password and salt to a key.  The parts of the format the source
itself determines — CBC chaining with the salt as IV, PKCS#7 padding as
configured by `CryptoPP::StreamTransformationFilter`, the magic-identifier
framing, the salt layout, and the error mapping — are embedded concretely
below.  A failure of the decryption filter (ciphertext not a whole number of
blocks, empty ciphertext, or an invalid PKCS#7 pad byte) raises a CryptoPP
exception that `openWallet` does not catch; the embedding represents that
uncaught exception as the distinguished outcome `OpenResult.threw`.
-/

/-- Error enumeration used by the source (the members of `WalletError`
that `WalletBackend.cpp` mentions). -/
inductive WalletError where
  | SUCCESS
  | FILENAME_NON_EXISTENT
  | NOT_A_WALLET_FILE
  | WALLET_FILE_CORRUPTED
  | WRONG_PASSWORD
  | INVALID_WALLET_FILENAME
  | WALLET_FILE_ALREADY_EXISTS
  | INVALID_MNEMONIC
  | FAILED_TO_INIT_DAEMON
  deriving DecidableEq, Repr

open WalletError

/-- Modelled from the spec: the file-type magic identifier
`Constants::IS_A_WALLET_IDENTIFIER` lives in `WalletBackend/Constants.h`,
which is not under `src/`; the spec only names it (`ISAWALLET`), so it is
modelled as the ASCII bytes of that name.  No theorem below depends on the
identifier's byte values, only on it being a fixed byte sequence. -/
def IS_A_WALLET_IDENTIFIER : List Nat :=
  [73, 83, 65, 87, 65, 76, 76, 69, 84]

/-- Modelled from the spec: the password magic identifier
`Constants::IS_CORRECT_PASSWORD_IDENTIFIER` (spec name `ISCORRECTPASSWORD`),
modelled as the ASCII bytes of that name; as above, theorems do not depend
on the byte values. -/
def IS_CORRECT_PASSWORD_IDENTIFIER : List Nat :=
  [73, 83, 67, 79, 82, 82, 69, 67, 84, 80, 65, 83, 83, 87, 79, 82, 68]

/-- Embeds `hasMagicIdentifier` (WalletBackend.cpp lines 44-69): check that
`data` begins with `magic`; on a too-short buffer return `tooSmall`, on a
byte mismatch return `wrongId`, otherwise erase the identifier from the
front and return `SUCCESS`.  The byte loop of the source is the
`List.range ... |>.all` check. -/
def hasMagicIdentifier (data magic : List Nat)
    (tooSmall wrongId : WalletError) : WalletError × List Nat :=
  if data.length < magic.length then
    (tooSmall, data)
  else if (List.range magic.length).all (fun i => data.getD i 0 == magic.getD i 0) then
    (SUCCESS, data.drop magic.length)
  else
    (wrongId, data)

/-- Pointwise xor of two byte strings (CBC chaining step); truncates to the
shorter input, as both inputs are 16-byte blocks wherever it is used. -/
def xorBytes (a b : List Nat) : List Nat :=
  List.zipWith (fun x y => x ^^^ y) a b

/-- Fuelled splitting of a byte string into 16-byte blocks (structural
recursion on the fuel so that the kernel can evaluate it). -/
def chunksGo : Nat → List Nat → List (List Nat)
  | 0, _ => []
  | Nat.succ n, l => if l = [] then [] else l.take 16 :: chunksGo n (l.drop 16)

/-- Split a byte string into 16-byte blocks (the AES block size used by the
source). -/
def chunks (l : List Nat) : List (List Nat) :=
  chunksGo l.length l

/-- Number of PKCS#7 padding bytes for a message of length `n`: always
between 1 and 16, a full extra block when `n` is already a multiple of 16.
This is the padding `CryptoPP::StreamTransformationFilter` applies for a
CBC cipher with its default padding scheme. -/
def padLength (n : Nat) : Nat := 16 - n % 16

/-- PKCS#7 pad: append `padLength` copies of the pad length. -/
def pkcs7pad (m : List Nat) : List Nat :=
  m ++ List.replicate (padLength m.length) (padLength m.length)

/-- PKCS#7 unpad as CryptoPP performs it: read the final byte as the pad
count and validate it is between 1 and the block size; `none` models the
`InvalidCiphertext` exception the filter throws on an invalid pad byte. -/
def pkcs7unpad (pt : List Nat) : Option (List Nat) :=
  match pt.getLast? with
  | none => none
  | some p => if 1 ≤ p ∧ p ≤ 16 then some (pt.take (pt.length - p)) else none

/-- Abstract keyed block cipher standing for the AES-256 permutation the
source instantiates (`CryptoPP::AES::Encryption` on 16-byte blocks with a
32-byte key); `encB`/`decB` take the key and one block. -/
structure BlockCipher where
  encB : List Nat → List Nat → List Nat
  decB : List Nat → List Nat → List Nat

/-- CBC chaining on a list of plaintext blocks
(`CryptoPP::CBC_Mode_ExternalCipher::Encryption`): each block is xored with
the previous ciphertext block (initially the IV) before the block cipher. -/
def cbcEncryptBlocks (enc : List Nat → List Nat → List Nat)
    (key : List Nat) : List Nat → List (List Nat) → List (List Nat)
  | _, [] => []
  | iv, b :: bs =>
      let c := enc key (xorBytes iv b)
      c :: cbcEncryptBlocks enc key c bs

/-- CBC unchaining on a list of ciphertext blocks
(`CryptoPP::CBC_Mode_ExternalCipher::Decryption`). -/
def cbcDecryptBlocks (dec : List Nat → List Nat → List Nat)
    (key : List Nat) : List Nat → List (List Nat) → List (List Nat)
  | _, [] => []
  | iv, c :: cs => xorBytes iv (dec key c) :: cbcDecryptBlocks dec key c cs

/-- Full CBC/PKCS#7 encryption of a byte string, as the save path drives the
CryptoPP stream filter: pad, split into blocks, chain, concatenate. -/
def cbcEncrypt (enc : List Nat → List Nat → List Nat)
    (key iv msg : List Nat) : List Nat :=
  (cbcEncryptBlocks enc key iv (chunks (pkcs7pad msg))).flatten

/-- Full CBC/PKCS#7 decryption of a byte string.  `none` models the
`InvalidCiphertext` exception of the CryptoPP decryption filter: raised when
the ciphertext is empty or not a whole number of blocks, or when the pad
byte of the unchained plaintext is invalid. -/
def cbcDecrypt (dec : List Nat → List Nat → List Nat)
    (key iv ct : List Nat) : Option (List Nat) :=
  if ct.length % 16 = 0 ∧ ct ≠ [] then
    pkcs7unpad ((cbcDecryptBlocks dec key iv (chunks ct)).flatten)
  else
    none

/-- Abstract key-derivation function standing for
`CryptoPP::PKCS5_PBKDF2_HMAC<SHA256>::DeriveKey` at the fixed iteration
count `Constants::PBKDF2_ITERATIONS`: password and salt to a 32-byte key. -/
def Kdf : Type := List Nat → List Nat → List Nat

/-- Embeds the byte string `WalletBackend::save` (lines 556-639) writes:
prepend the password identifier to the serialized wallet state, derive the
key from the password and a fresh 16-byte salt, CBC-encrypt with the salt
as IV, and emit file identifier, then plaintext salt, then ciphertext. -/
def saveBytes (C : BlockCipher) (kdf : Kdf)
    (walletJson password salt : List Nat) : List Nat :=
  let walletData := IS_CORRECT_PASSWORD_IDENTIFIER ++ walletJson
  let key := kdf password salt
  let encryptedData := cbcEncrypt C.encB key salt walletData
  IS_A_WALLET_IDENTIFIER ++ salt ++ encryptedData

/-- Outcome of opening a wallet container: an error return, a successful
return carrying the decrypted JSON payload, or an uncaught exception
escaping `openWallet` (`threw`). -/
inductive OpenResult where
  | err (e : WalletError)
  | ok (payload : List Nat)
  | threw
  deriving DecidableEq, Repr

/-- Embeds the body of `WalletBackend::openWallet` (lines 370-471) from the
point where the file bytes are in memory up to the decrypted JSON payload:
file-type magic check (both failures map to `NOT_A_WALLET_FILE`), 16-byte
salt split (`WALLET_FILE_CORRUPTED` when too short), key derivation and
CBC decryption (an uncaught CryptoPP exception when the ciphertext body is
malformed or the pad byte invalid), then the password magic check
(`WALLET_FILE_CORRUPTED` when too short, `WRONG_PASSWORD` on mismatch). -/
def openWalletBytes (C : BlockCipher) (kdf : Kdf)
    (fileData password : List Nat) : OpenResult :=
  let r1 := hasMagicIdentifier fileData IS_A_WALLET_IDENTIFIER
    NOT_A_WALLET_FILE NOT_A_WALLET_FILE
  if r1.1 ≠ SUCCESS then .err r1.1
  else
    let buffer := r1.2
    if buffer.length < 16 then .err WALLET_FILE_CORRUPTED
    else
      let salt := buffer.take 16
      let rest := buffer.drop 16
      let key := kdf password salt
      match cbcDecrypt C.decB key salt rest with
      | none => .threw
      | some decryptedData =>
          let r2 := hasMagicIdentifier decryptedData IS_CORRECT_PASSWORD_IDENTIFIER
            WALLET_FILE_CORRUPTED WRONG_PASSWORD
          if r2.1 ≠ SUCCESS then .err r2.1 else .ok r2.2

/-- Simple file-system state: each path maps to the byte contents of the
file there, or `none` when no file exists at that path. -/
def FS : Type := String → Option (List Nat)

/-- Overwrite (or create) the file at `name` with `data`. -/
def FS.update (fs : FS) (name : String) (data : List Nat) : FS :=
  fun n => if n = name then some data else fs n

/-- Embeds `checkNewWalletFilename` (lines 88-103): `ifstream` succeeding
means a file exists (`WALLET_FILE_ALREADY_EXISTS`, nothing touched);
otherwise the `ofstream` probe is attempted — when the path is writable it
creates an empty file at the path as a side effect and the check succeeds,
otherwise `INVALID_WALLET_FILENAME`. -/
def checkNewWalletFilename (writable : String → Bool) (fs : FS)
    (filename : String) : WalletError × FS :=
  if (fs filename).isSome then
    (WALLET_FILE_ALREADY_EXISTS, fs)
  else if writable filename then
    (SUCCESS, fs.update filename [])
  else
    (INVALID_WALLET_FILENAME, fs)

/-- SubWallets aggregate as the constructor builds it (external data owner;
only the construction arguments visible in this file are modelled). -/
structure SubWallets where
  privateSpendKey : List Nat
  address : String
  scanHeight : Nat
  newWallet : Bool
  deriving DecidableEq, Repr

/-- Wallet synchronizer handle; only the started flag is observable here. -/
structure WalletSynchronizer where
  started : Bool
  deriving DecidableEq, Repr

/-- The WalletBackend aggregate: the fields of the C++ class that the
embedded operations read or write.  `hasDaemon` models `m_daemon != nullptr`
and the `Option` fields model the null-until-created shared pointers. -/
structure WalletBackend where
  filename : String
  password : List Nat
  privateViewKey : List Nat
  isViewWallet : Bool
  hasDaemon : Bool
  subWallets : Option SubWallets
  walletSynchronizer : Option WalletSynchronizer
  deriving DecidableEq, Repr

/-- Embeds the default constructor `WalletBackend()` (lines 112-123): no
daemon, no sub-wallets, no synchronizer. -/
def WalletBackend.empty : WalletBackend :=
  { filename := "", password := [], privateViewKey := [], isViewWallet := false,
    hasDaemon := false, subWallets := none, walletSynchronizer := none }

/-- Sentinel all-zero secret key (`CryptoNote::NULL_SECRET_KEY`), which the
view-wallet import passes as the private spend key. -/
def NULL_SECRET_KEY : List Nat := List.replicate 32 0

/-- Observable actions of the construction/import flows, used to state in
which order side effects happen. -/
inductive Event where
  | genKeys
  | decodeMnemonic
  | constructWallet
  | daemonHandshake
  | syncConstructed
  | syncReattached
  | syncStarted
  | saved
  deriving DecidableEq, Repr

/-- Ambient collaborators of the backend, passed explicitly: the
address-rendering and view-key-derivation primitives, the block cipher and
key-derivation function, JSON serialization, path writability, the daemon
handshake outcome, and the random salt `save` will draw. -/
structure Env where
  addressFromPrivateKeys : List Nat → List Nat → String
  generateViewFromSpend : List Nat → List Nat
  cipher : BlockCipher
  kdf : Kdf
  serialize : WalletBackend → List Nat
  writable : String → Bool
  daemonOk : Bool
  freshSalt : List Nat

/-- Embeds the main constructor (lines 168-198): store filename, password,
view key and the view-wallet flag, create the daemon handle, compute the
address from the two private keys via `addressFromPrivateKeys`, and build
the SubWallets container from the spend key, that address, the scan height
and the new-wallet flag.  Note the address is always computed from the
keys; no caller-supplied address enters this path. -/
def mkWalletBackend (env : Env) (filename : String) (password : List Nat)
    (privateSpendKey privateViewKey : List Nat) (isViewWallet : Bool)
    (scanHeight : Nat) (newWallet : Bool) : WalletBackend :=
  { filename, password, privateViewKey, isViewWallet,
    hasDaemon := true,
    subWallets := some
      { privateSpendKey,
        address := env.addressFromPrivateKeys privateSpendKey privateViewKey,
        scanHeight, newWallet },
    walletSynchronizer := none }

/-- Embeds the body of `WalletBackend::init` (lines 488-554) after the
daemon null check: perform the daemon handshake (its outcome is the
`daemonOk` input; a failure gives `FAILED_TO_INIT_DAEMON`), then construct
the synchronizer if none was loaded from file or reattach the live handles
if one was, bind it to the sub-wallets, start it, and return the handshake
result. -/
def initCore (daemonOk : Bool) (w : WalletBackend) :
    WalletError × WalletBackend × List Event :=
  let result := if daemonOk then SUCCESS else FAILED_TO_INIT_DAEMON
  match w.walletSynchronizer with
  | none =>
      (result, { w with walletSynchronizer := some { started := true } },
       [Event.daemonHandshake, Event.syncConstructed, Event.syncStarted])
  | some sync =>
      (result, { w with walletSynchronizer := some { sync with started := true } },
       [Event.daemonHandshake, Event.syncReattached, Event.syncStarted])

/-- Result of `init`: either the uncaught `std::runtime_error` thrown when
no daemon handle is set, or a normal return. -/
inductive InitResult where
  | threw
  | ret (error : WalletError) (wallet : WalletBackend) (events : List Event)
  deriving DecidableEq, Repr

/-- Embeds `WalletBackend::init` (lines 488-554) including the
`m_daemon == nullptr` check, which throws. -/
def WalletBackend.init (daemonOk : Bool) (w : WalletBackend) : InitResult :=
  if w.hasDaemon then
    let r := initCore daemonOk w
    .ret r.1 r.2.1 r.2.2
  else
    .threw

/-- Embeds `WalletBackend::save` (lines 556-639) at the file-system level:
serialize, frame and encrypt via `saveBytes`, then open the target path for
writing — failure gives `INVALID_WALLET_FILENAME` with nothing written,
success overwrites the file with the framed bytes. -/
def WalletBackend.save (env : Env) (fs : FS) (w : WalletBackend)
    (salt : List Nat) : WalletError × FS :=
  if env.writable w.filename then
    (SUCCESS, fs.update w.filename
      (saveBytes env.cipher env.kdf (env.serialize w) w.password salt))
  else
    (INVALID_WALLET_FILENAME, fs)

/-- Shared tail of the four creation entry points: run `init` (the
constructor set the daemon handle, so the null check passes), return the
error with a default-constructed wallet on failure, otherwise save and
return the save result with the wallet. -/
def runInitAndSave (env : Env) (fs : FS) (w : WalletBackend)
    (events : List Event) : WalletError × WalletBackend × FS × List Event :=
  let r := initCore env.daemonOk w
  let events' := events ++ r.2.2
  if r.1 ≠ SUCCESS then (r.1, WalletBackend.empty, fs, events')
  else
    let s := WalletBackend.save env fs r.2.1 env.freshSalt
    (s.1, r.2.1, s.2, events' ++ [Event.saved])

/-- Embeds `WalletBackend::createWallet` (lines 325-367): filename check,
generate a spend key (`generatedSpendKey` is the randomness), derive the
view key, construct with scan height 0 and the new-wallet flag set, init,
save. -/
def createWallet (env : Env) (generatedSpendKey : List Nat) (fs : FS)
    (filename : String) (password : List Nat) :
    WalletError × WalletBackend × FS × List Event :=
  let c := checkNewWalletFilename env.writable fs filename
  if c.1 ≠ SUCCESS then (c.1, WalletBackend.empty, c.2, [])
  else
    let privateViewKey := env.generateViewFromSpend generatedSpendKey
    let wallet := mkWalletBackend env filename password generatedSpendKey
      privateViewKey false 0 true
    runInitAndSave env c.2 wallet [Event.genKeys, Event.constructWallet]

/-- Embeds `WalletBackend::importWalletFromSeed` (lines 206-251): filename
check, mnemonic decode (`mnemonicKey = none` models a malformed phrase,
giving `INVALID_MNEMONIC`), view-key derivation, construction with the
new-wallet flag clear, init, save. -/
def importWalletFromSeed (env : Env) (mnemonicKey : Option (List Nat))
    (fs : FS) (filename : String) (password : List Nat) (scanHeight : Nat) :
    WalletError × WalletBackend × FS × List Event :=
  let c := checkNewWalletFilename env.writable fs filename
  if c.1 ≠ SUCCESS then (c.1, WalletBackend.empty, c.2, [])
  else
    match mnemonicKey with
    | none => (INVALID_MNEMONIC, WalletBackend.empty, c.2, [Event.decodeMnemonic])
    | some privateSpendKey =>
        let privateViewKey := env.generateViewFromSpend privateSpendKey
        let wallet := mkWalletBackend env filename password privateSpendKey
          privateViewKey false scanHeight false
        runInitAndSave env c.2 wallet [Event.decodeMnemonic, Event.constructWallet]

/-- Embeds `WalletBackend::importWalletFromKeys` (lines 255-286): filename
check, construction from the two supplied keys with the new-wallet flag
clear, init, save. -/
def importWalletFromKeys (env : Env) (privateSpendKey privateViewKey : List Nat)
    (fs : FS) (filename : String) (password : List Nat) (scanHeight : Nat) :
    WalletError × WalletBackend × FS × List Event :=
  let c := checkNewWalletFilename env.writable fs filename
  if c.1 ≠ SUCCESS then (c.1, WalletBackend.empty, c.2, [])
  else
    let wallet := mkWalletBackend env filename password privateSpendKey
      privateViewKey false scanHeight false
    runInitAndSave env c.2 wallet [Event.constructWallet]

/-- Embeds `WalletBackend::importViewWallet` (lines 291-322): filename
check, construction with `NULL_SECRET_KEY` as the spend key and the
view-wallet flag set, init, save.  Faithful to the source, the `address`
argument is never used — the constructor computes the stored address from
the null spend key and the view key. -/
def importViewWallet (env : Env) (privateViewKey : List Nat) (address : String)
    (fs : FS) (filename : String) (password : List Nat) (scanHeight : Nat) :
    WalletError × WalletBackend × FS × List Event :=
  let c := checkNewWalletFilename env.writable fs filename
  if c.1 ≠ SUCCESS then (c.1, WalletBackend.empty, c.2, [])
  else
    let wallet := mkWalletBackend env filename password NULL_SECRET_KEY
      privateViewKey true scanHeight false
    runInitAndSave env c.2 wallet [Event.constructWallet]

/-- Embeds the head of `WalletBackend::openWallet` (lines 370-471): a
missing file gives `FILENAME_NON_EXISTENT`; otherwise the file's bytes are
processed by `openWalletBytes`. -/
def openWallet (C : BlockCipher) (kdf : Kdf) (fs : FS) (filename : String)
    (password : List Nat) : OpenResult :=
  match fs filename with
  | none => .err FILENAME_NON_EXISTENT
  | some buffer => openWalletBytes C kdf buffer password

/-- Concrete block cipher used to instantiate witnesses: xor with a pad
derived from the key (an involution on 16-byte blocks). -/
def toyPad (k : List Nat) : List Nat := (k ++ List.replicate 16 0).take 16

/-- Concrete `BlockCipher` instance for witnesses. -/
def toyCipher : BlockCipher :=
  { encB := fun k b => xorBytes (toyPad k) b,
    decB := fun k b => xorBytes (toyPad k) b }

/-- Concrete `Kdf` instance for witnesses: the key is the password itself. -/
def toyKdf : Kdf := fun password _ => password

/-- Concrete environment used by witnesses. -/
def toyEnv : Env :=
  { addressFromPrivateKeys := fun _ _ => "A",
    generateViewFromSpend := fun k => k,
    cipher := toyCipher, kdf := toyKdf,
    serialize := fun _ => [], writable := fun _ => true,
    daemonOk := true, freshSalt := List.replicate 16 0 }

/-- Concrete empty file system used by witnesses. -/
def emptyFS : FS := fun _ => none

/-- Concrete file system holding one file, used by witnesses. -/
def oneFileFS : FS := fun n => if n = "w" then some [1, 2, 3] else none

/-! Helper lemmas about the byte-level operations. -/

lemma xorBytes_length (a b : List Nat) :
    (xorBytes a b).length = min a.length b.length :=
  List.length_zipWith _ a b

lemma xorBytes_cancel : ∀ (a b : List Nat), b.length ≤ a.length →
    xorBytes a (xorBytes a b) = b := by
  intro a
  induction a with
  | nil =>
    intro b h
    have hb : b = [] :=
      List.eq_nil_of_length_eq_zero (Nat.le_zero.mp (by simpa using h))
    subst hb
    simp [xorBytes]
  | cons x xs ih =>
    intro b h
    cases b with
    | nil => simp [xorBytes]
    | cons y ys =>
      simp only [xorBytes, List.zipWith_cons_cons] at *
      refine congrArg₂ List.cons ?_ (ih ys (by simpa using h))
      rw [← Nat.xor_assoc, Nat.xor_self, Nat.zero_xor]

lemma chunksGo_nil (fuel : Nat) : chunksGo fuel [] = [] := by
  cases fuel <;> simp [chunksGo]

lemma chunksGo_congr : ∀ (f₁ f₂ : Nat) (l : List Nat),
    l.length ≤ f₁ → l.length ≤ f₂ → chunksGo f₁ l = chunksGo f₂ l := by
  intro f₁
  induction f₁ with
  | zero =>
    intro f₂ l h1 _
    have hl : l = [] := List.eq_nil_of_length_eq_zero (Nat.le_zero.mp h1)
    subst hl
    rw [chunksGo_nil, chunksGo_nil]
  | succ n ih =>
    intro f₂ l h1 h2
    by_cases hl : l = []
    · subst hl; rw [chunksGo_nil, chunksGo_nil]
    · have hpos : 0 < l.length := List.length_pos.mpr hl
      obtain ⟨m, rfl⟩ : ∃ m, f₂ = m + 1 := ⟨f₂ - 1, by omega⟩
      simp only [chunksGo, if_neg hl]
      refine congrArg (List.cons _) (ih m (l.drop 16) ?_ ?_) <;>
        simp only [List.length_drop] <;> omega

lemma chunksGo_fuel (fuel : Nat) (l : List Nat) (h : l.length ≤ fuel) :
    chunksGo fuel l = chunks l :=
  chunksGo_congr fuel l.length l h le_rfl

lemma chunks_append_block (b t : List Nat) (hb : b.length = 16) :
    chunks (b ++ t) = b :: chunks t := by
  have hlen : (b ++ t).length = 16 + t.length := by simp [hb]
  have hne : b ++ t ≠ [] := by
    intro h0
    rw [h0] at hlen
    simp only [List.length_nil] at hlen
    omega
  unfold chunks
  obtain ⟨m, hm⟩ : ∃ m, (b ++ t).length = m + 1 := ⟨(b ++ t).length - 1, by omega⟩
  rw [hm]
  simp only [chunksGo, if_neg hne]
  rw [List.take_left' hb, List.drop_left' hb]
  refine congrArg (List.cons _) (chunksGo_congr m t.length t ?_ le_rfl)
  omega

lemma flatten_chunksGo : ∀ (fuel : Nat) (l : List Nat), l.length ≤ fuel →
    (chunksGo fuel l).flatten = l := by
  intro fuel
  induction fuel with
  | zero =>
    intro l h
    have hl : l = [] := List.eq_nil_of_length_eq_zero (Nat.le_zero.mp h)
    subst hl
    simp [chunksGo]
  | succ n ih =>
    intro l h
    by_cases hl : l = []
    · subst hl; simp [chunksGo]
    · have hpos : 0 < l.length := List.length_pos.mpr hl
      simp only [chunksGo, if_neg hl, List.flatten_cons]
      rw [ih (l.drop 16) (by simp only [List.length_drop]; omega)]
      exact List.take_append_drop 16 l

lemma flatten_chunks (l : List Nat) : (chunks l).flatten = l :=
  flatten_chunksGo l.length l le_rfl

lemma chunks_flatten_blocks : ∀ (bs : List (List Nat)),
    (∀ b ∈ bs, b.length = 16) → chunks bs.flatten = bs := by
  intro bs
  induction bs with
  | nil => intro _; simp [chunks, chunksGo_nil]
  | cons b bs ih =>
    intro h
    rw [List.flatten_cons, chunks_append_block b bs.flatten (h b (by simp)),
      ih (fun x hx => h x (by simp [hx]))]

lemma chunksGo_mem_length : ∀ (fuel : Nat) (l : List Nat), l.length ≤ fuel →
    l.length % 16 = 0 → ∀ b ∈ chunksGo fuel l, b.length = 16 := by
  intro fuel
  induction fuel with
  | zero => intro l _ _ b hb; simp [chunksGo] at hb
  | succ n ih =>
    intro l hf hm b hb
    by_cases hl : l = []
    · subst hl; simp [chunksGo] at hb
    · have hpos : 0 < l.length := List.length_pos.mpr hl
      have h16 : 16 ≤ l.length := by omega
      simp only [chunksGo, if_neg hl, List.mem_cons] at hb
      rcases hb with rfl | hb
      · simp only [List.length_take]; omega
      · exact ih (l.drop 16) (by simp only [List.length_drop]; omega)
          (by simp only [List.length_drop]; omega) b hb

lemma chunks_mem_length (l : List Nat) (hm : l.length % 16 = 0) :
    ∀ b ∈ chunks l, b.length = 16 :=
  chunksGo_mem_length l.length l le_rfl hm

lemma chunks_ne_nil (l : List Nat) (h : l ≠ []) : chunks l ≠ [] := by
  unfold chunks
  obtain ⟨m, hm⟩ : ∃ m, l.length = m + 1 :=
    ⟨l.length - 1, by have := List.length_pos.mpr h; omega⟩
  rw [hm]
  simp [chunksGo, h]

lemma flatten_blocks_length : ∀ (bs : List (List Nat)),
    (∀ b ∈ bs, b.length = 16) → bs.flatten.length = 16 * bs.length := by
  intro bs
  induction bs with
  | nil => intro _; simp
  | cons b bs ih =>
    intro h
    simp only [List.flatten_cons, List.length_append, List.length_cons,
      h b (by simp), ih (fun x hx => h x (by simp [hx]))]
    ring

lemma cbcEncryptBlocks_length (enc : List Nat → List Nat → List Nat)
    (key : List Nat) : ∀ (bs : List (List Nat)) (iv : List Nat),
    (cbcEncryptBlocks enc key iv bs).length = bs.length := by
  intro bs
  induction bs with
  | nil => intro iv; simp [cbcEncryptBlocks]
  | cons b bs ih => intro iv; simp [cbcEncryptBlocks, ih]

lemma cbcEncryptBlocks_mem_length (enc : List Nat → List Nat → List Nat)
    (key : List Nat) (hlen : ∀ b, b.length = 16 → (enc key b).length = 16) :
    ∀ (bs : List (List Nat)) (iv : List Nat), iv.length = 16 →
      (∀ b ∈ bs, b.length = 16) →
      ∀ c ∈ cbcEncryptBlocks enc key iv bs, c.length = 16 := by
  intro bs
  induction bs with
  | nil => intro iv _ _ c hc; simp [cbcEncryptBlocks] at hc
  | cons b bs ih =>
    intro iv hiv hb c hc
    have hb16 : b.length = 16 := hb b (by simp)
    have hx : (xorBytes iv b).length = 16 := by
      rw [xorBytes_length, hiv, hb16]
      exact Nat.min_self 16
    have hc16 : (enc key (xorBytes iv b)).length = 16 := hlen _ hx
    simp only [cbcEncryptBlocks, List.mem_cons] at hc
    rcases hc with rfl | hc
    · exact hc16
    · exact ih (enc key (xorBytes iv b)) hc16 (fun x hx => hb x (by simp [hx])) c hc

lemma cbcDecryptBlocks_encryptBlocks (C : BlockCipher) (key : List Nat)
    (hdec : ∀ b, b.length = 16 → C.decB key (C.encB key b) = b)
    (hlen : ∀ b, b.length = 16 → (C.encB key b).length = 16) :
    ∀ (bs : List (List Nat)) (iv : List Nat), iv.length = 16 →
      (∀ b ∈ bs, b.length = 16) →
      cbcDecryptBlocks C.decB key iv (cbcEncryptBlocks C.encB key iv bs) = bs := by
  intro bs
  induction bs with
  | nil => intro iv _ _; simp [cbcEncryptBlocks, cbcDecryptBlocks]
  | cons b bs ih =>
    intro iv hiv hb
    have hb16 : b.length = 16 := hb b (by simp)
    have hx : (xorBytes iv b).length = 16 := by
      rw [xorBytes_length, hiv, hb16]
      exact Nat.min_self 16
    simp only [cbcEncryptBlocks, cbcDecryptBlocks]
    rw [hdec _ hx, xorBytes_cancel iv b (by omega),
      ih (C.encB key (xorBytes iv b)) (hlen _ hx) (fun x hx2 => hb x (by simp [hx2]))]

lemma padLength_pos (n : Nat) : 1 ≤ padLength n := by unfold padLength; omega

lemma padLength_le (n : Nat) : padLength n ≤ 16 := by unfold padLength; omega

lemma pkcs7pad_length (m : List Nat) :
    (pkcs7pad m).length = m.length + padLength m.length := by
  simp [pkcs7pad]

lemma pkcs7pad_mod (m : List Nat) : (pkcs7pad m).length % 16 = 0 := by
  rw [pkcs7pad_length]
  unfold padLength
  omega

lemma pkcs7pad_ne_nil (m : List Nat) : pkcs7pad m ≠ [] := by
  intro h0
  have := congrArg List.length h0
  rw [pkcs7pad_length] at this
  have := padLength_pos m.length
  simp at *
  omega

lemma pkcs7unpad_eq (pt : List Nat) (p : Nat) (h : pt.getLast? = some p) :
    pkcs7unpad pt =
      if 1 ≤ p ∧ p ≤ 16 then some (pt.take (pt.length - p)) else none := by
  unfold pkcs7unpad
  rw [h]

lemma pkcs7pad_getLast (m : List Nat) :
    (pkcs7pad m).getLast? = some (padLength m.length) := by
  obtain ⟨k, hk⟩ : ∃ k, padLength m.length = k + 1 :=
    ⟨padLength m.length - 1, by have := padLength_pos m.length; omega⟩
  unfold pkcs7pad
  rw [hk, List.replicate_succ' k (k + 1), ← List.append_assoc,
    List.getLast?_concat]

lemma pkcs7unpad_pad (m : List Nat) : pkcs7unpad (pkcs7pad m) = some m := by
  rw [pkcs7unpad_eq _ _ (pkcs7pad_getLast m),
    if_pos ⟨padLength_pos m.length, padLength_le m.length⟩]
  rw [pkcs7pad_length]
  have h : m.length + padLength m.length - padLength m.length = m.length := by omega
  rw [h]
  unfold pkcs7pad
  rw [List.take_left' rfl]

lemma cbc_roundtrip (C : BlockCipher) (key : List Nat)
    (hdec : ∀ b, b.length = 16 → C.decB key (C.encB key b) = b)
    (hlen : ∀ b, b.length = 16 → (C.encB key b).length = 16)
    (iv m : List Nat) (hiv : iv.length = 16) :
    cbcDecrypt C.decB key iv (cbcEncrypt C.encB key iv m) = some m := by
  have hblocks : ∀ b ∈ chunks (pkcs7pad m), b.length = 16 :=
    chunks_mem_length _ (pkcs7pad_mod m)
  have hct : ∀ c ∈ cbcEncryptBlocks C.encB key iv (chunks (pkcs7pad m)),
      c.length = 16 :=
    cbcEncryptBlocks_mem_length C.encB key hlen _ iv hiv hblocks
  have hctlen : (cbcEncrypt C.encB key iv m).length =
      16 * (chunks (pkcs7pad m)).length := by
    unfold cbcEncrypt
    rw [flatten_blocks_length _ hct, cbcEncryptBlocks_length]
  have hchne : chunks (pkcs7pad m) ≠ [] := chunks_ne_nil _ (pkcs7pad_ne_nil m)
  have hpos : 0 < (chunks (pkcs7pad m)).length := List.length_pos.mpr hchne
  unfold cbcDecrypt
  rw [if_pos ?_]
  · unfold cbcEncrypt
    rw [chunks_flatten_blocks _ hct,
      cbcDecryptBlocks_encryptBlocks C key hdec hlen _ iv hiv hblocks,
      flatten_chunks]
    exact pkcs7unpad_pad m
  · refine ⟨?_, ?_⟩
    · rw [hctlen]
      simp [Nat.mul_mod_right]
    · intro h0
      have h1 := congrArg List.length h0
      rw [hctlen] at h1
      simp only [List.length_nil] at h1
      omega

lemma pointwise_take : ∀ (data magic : List Nat), magic.length ≤ data.length →
    ((∀ i < magic.length, data.getD i 0 = magic.getD i 0) ↔
      data.take magic.length = magic) := by
  intro data
  induction data with
  | nil =>
    intro magic h
    have hm : magic = [] :=
      List.eq_nil_of_length_eq_zero (Nat.le_zero.mp (by simpa using h))
    subst hm
    simp
  | cons x xs ih =>
    intro magic h
    cases magic with
    | nil => simp
    | cons y ys =>
      have h' : ys.length ≤ xs.length := by simpa using h
      constructor
      · intro hp
        have h0 : x = y := by simpa using hp 0 (by simp)
        have hrest : xs.take ys.length = ys := by
          rw [← ih ys h']
          intro i hi
          have := hp (i + 1) (by simpa using Nat.succ_lt_succ hi)
          simpa using this
        simp [List.take_succ_cons, h0, hrest]
      · intro he i hi
        have hx : x = y ∧ xs.take ys.length = ys := by
          simpa [List.take_succ_cons] using he
        cases i with
        | zero => simpa using hx.1
        | succ i =>
          have hi' : i < ys.length := by simpa using hi
          have := ((ih ys h').mpr hx.2) i hi'
          simpa using this

lemma hasMagicIdentifier_eq (data magic : List Nat) (e1 e2 : WalletError) :
    hasMagicIdentifier data magic e1 e2 =
      if data.length < magic.length then (e1, data)
      else if data.take magic.length = magic then (SUCCESS, data.drop magic.length)
      else (e2, data) := by
  unfold hasMagicIdentifier
  by_cases h1 : data.length < magic.length
  · simp [h1]
  · have h1' : magic.length ≤ data.length := Nat.le_of_not_lt h1
    have hiff := pointwise_take data magic h1'
    by_cases h2 : data.take magic.length = magic
    · have hall : (List.range magic.length).all
          (fun i => data.getD i 0 == magic.getD i 0) = true := by
        rw [List.all_eq_true]
        intro i hi
        rw [beq_iff_eq]
        exact (hiff.mpr h2) i (List.mem_range.mp hi)
      simp only [if_neg h1, if_pos hall, if_pos h2]
    · have hall : ¬ ((List.range magic.length).all
          (fun i => data.getD i 0 == magic.getD i 0) = true) := by
        intro hall
        refine h2 (hiff.mp ?_)
        intro i hi
        simpa [beq_iff_eq] using
          List.all_eq_true.mp hall i (List.mem_range.mpr hi)
      simp only [if_neg h1, if_neg hall, if_neg h2]

lemma hasMagicIdentifier_append (magic rest : List Nat) (e1 e2 : WalletError) :
    hasMagicIdentifier (magic ++ rest) magic e1 e2 = (SUCCESS, rest) := by
  rw [hasMagicIdentifier_eq]
  have hlen : ¬ ((magic ++ rest).length < magic.length) := by
    simp only [List.length_append]
    omega
  rw [if_neg hlen, if_pos (List.take_left magic rest), List.drop_left]

lemma openWalletBytes_structured (C : BlockCipher) (kdf : Kdf)
    (salt ct password : List Nat) (hsalt : salt.length = 16) :
    openWalletBytes C kdf (IS_A_WALLET_IDENTIFIER ++ (salt ++ ct)) password =
      match cbcDecrypt C.decB (kdf password salt) salt ct with
      | none => OpenResult.threw
      | some g =>
          if (hasMagicIdentifier g IS_CORRECT_PASSWORD_IDENTIFIER
                WALLET_FILE_CORRUPTED WRONG_PASSWORD).1 ≠ SUCCESS then
            OpenResult.err (hasMagicIdentifier g IS_CORRECT_PASSWORD_IDENTIFIER
                WALLET_FILE_CORRUPTED WRONG_PASSWORD).1
          else
            OpenResult.ok (hasMagicIdentifier g IS_CORRECT_PASSWORD_IDENTIFIER
                WALLET_FILE_CORRUPTED WRONG_PASSWORD).2 := by
  have hlt : ¬ ((salt ++ ct).length < 16) := by
    simp only [List.length_append, hsalt]
    omega
  unfold openWalletBytes
  rw [hasMagicIdentifier_append]
  simp only [ne_eq, not_true_eq_false, if_false, if_neg hlt,
    List.take_left' hsalt, List.drop_left' hsalt, ite_false]

lemma toyPad_length (k : List Nat) : (toyPad k).length = 16 := by
  simp only [toyPad, List.length_take, List.length_append, List.length_replicate]
  omega

lemma toyCipher_dec (k : List Nat) :
    ∀ b, b.length = 16 → toyCipher.decB k (toyCipher.encB k b) = b := by
  intro b hb
  exact xorBytes_cancel (toyPad k) b (by simp [toyPad_length, hb])

lemma toyCipher_len (k : List Nat) :
    ∀ b, b.length = 16 → (toyCipher.encB k b).length = 16 := by
  intro b hb
  simp [toyCipher, xorBytes_length, toyPad_length, hb]

/-- C1: for every password P and serializable wallet state S (its JSON
encoding, as a byte string), opening the container produced by `save` with
the same password P recovers S bit-for-bit, for the fresh 16-byte salt that
save call drew — given that the block cipher decrypts what it encrypts on
16-byte blocks and is block-length-preserving (the AES contract). -/
theorem save_open_roundtrip (C : BlockCipher) (kdf : Kdf)
    (hdec : ∀ k b, b.length = 16 → C.decB k (C.encB k b) = b)
    (hlen : ∀ k b, b.length = 16 → (C.encB k b).length = 16)
    (S password salt : List Nat) (hsalt : salt.length = 16) :
    openWalletBytes C kdf (saveBytes C kdf S password salt) password =
      OpenResult.ok S := by
  unfold saveBytes
  rw [List.append_assoc,
    openWalletBytes_structured C kdf salt _ password hsalt,
    cbc_roundtrip C (kdf password salt) (hdec _) (hlen _) salt _ hsalt]
  simp only [hasMagicIdentifier_append, ne_eq, not_true_eq_false, if_false,
    ite_false]

/-- Witness for C1: a concrete cipher, state, password and salt. -/
theorem save_open_roundtrip_witness :
    openWalletBytes toyCipher toyKdf
      (saveBytes toyCipher toyKdf [7, 8] [1] (List.replicate 16 0)) [1] =
      OpenResult.ok [7, 8] :=
  save_open_roundtrip toyCipher toyKdf
    (fun k => toyCipher_dec k) (fun k => toyCipher_len k) [7, 8] [1]
    (List.replicate 16 0) (by simp)

lemma openWalletBytes_decrypt_none (C : BlockCipher) (kdf : Kdf)
    (salt ct password : List Nat) (hsalt : salt.length = 16)
    (h : cbcDecrypt C.decB (kdf password salt) salt ct = none) :
    openWalletBytes C kdf (IS_A_WALLET_IDENTIFIER ++ (salt ++ ct)) password =
      OpenResult.threw := by
  rw [openWalletBytes_structured C kdf salt ct password hsalt, h]

lemma openWalletBytes_decrypt_some (C : BlockCipher) (kdf : Kdf)
    (salt ct password g : List Nat) (hsalt : salt.length = 16)
    (h : cbcDecrypt C.decB (kdf password salt) salt ct = some g) :
    openWalletBytes C kdf (IS_A_WALLET_IDENTIFIER ++ (salt ++ ct)) password =
      if (hasMagicIdentifier g IS_CORRECT_PASSWORD_IDENTIFIER
            WALLET_FILE_CORRUPTED WRONG_PASSWORD).1 ≠ SUCCESS then
        OpenResult.err (hasMagicIdentifier g IS_CORRECT_PASSWORD_IDENTIFIER
            WALLET_FILE_CORRUPTED WRONG_PASSWORD).1
      else
        OpenResult.ok (hasMagicIdentifier g IS_CORRECT_PASSWORD_IDENTIFIER
            WALLET_FILE_CORRUPTED WRONG_PASSWORD).2 := by
  rw [openWalletBytes_structured C kdf salt ct password hsalt, h]

/-- C4: the magic check returns the designated too-small error on a buffer
shorter than the identifier; returns the designated mismatch error when the
buffer is long enough but some byte among the first N differs; and on an
exact match of the first N bytes returns success with exactly those N bytes
removed, the remainder unchanged. -/
theorem hasMagicIdentifier_spec (data magic rest : List Nat)
    (tooSmall wrongId : WalletError) (i : Nat) :
    (data.length < magic.length →
      hasMagicIdentifier data magic tooSmall wrongId = (tooSmall, data)) ∧
    (magic.length ≤ data.length → i < magic.length →
      data.getD i 0 ≠ magic.getD i 0 →
      hasMagicIdentifier data magic tooSmall wrongId = (wrongId, data)) ∧
    hasMagicIdentifier (magic ++ rest) magic tooSmall wrongId =
      (SUCCESS, rest) := by
  refine ⟨?_, ?_, hasMagicIdentifier_append magic rest tooSmall wrongId⟩
  · intro h1
    rw [hasMagicIdentifier_eq, if_pos h1]
  · intro hle hi hne
    have h2 : ¬ (data.take magic.length = magic) := fun htake =>
      hne (((pointwise_take data magic hle).mpr htake) i hi)
    rw [hasMagicIdentifier_eq, if_neg (Nat.not_lt.mpr hle), if_neg h2]

/-- Witness for C4: a concrete too-short buffer, a concrete one-byte
mismatch, and a concrete exact match. -/
theorem hasMagicIdentifier_spec_witness :
    hasMagicIdentifier [5] [1, 2] WALLET_FILE_CORRUPTED WRONG_PASSWORD =
      (WALLET_FILE_CORRUPTED, [5]) ∧
    hasMagicIdentifier [9, 2, 3] [1, 2] WALLET_FILE_CORRUPTED WRONG_PASSWORD =
      (WRONG_PASSWORD, [9, 2, 3]) ∧
    hasMagicIdentifier ([1, 2] ++ [3, 4]) [1, 2] WALLET_FILE_CORRUPTED
      WRONG_PASSWORD = (SUCCESS, [3, 4]) :=
  ⟨(hasMagicIdentifier_spec [5] [1, 2] [] WALLET_FILE_CORRUPTED
      WRONG_PASSWORD 0).1 (by decide),
   (hasMagicIdentifier_spec [9, 2, 3] [1, 2] [] WALLET_FILE_CORRUPTED
      WRONG_PASSWORD 0).2.1 (by decide) (by decide) (by decide),
   (hasMagicIdentifier_spec [1, 2] [1, 2] [3, 4] WALLET_FILE_CORRUPTED
      WRONG_PASSWORD 0).2.2⟩

/-- C3: when the target path is writable, `save` returns success and
overwrites the file at the wallet's path with exactly: the file-type magic
identifier, then the 16-byte plaintext salt, then the CBC ciphertext
(keyed by the key the KDF derives from the password and salt, IV = the same
salt) of the password magic identifier followed by the JSON-encoded wallet
state; files at other paths are untouched. -/
theorem save_writes_layout (env : Env) (fs : FS) (w : WalletBackend)
    (salt : List Nat) (hw : env.writable w.filename = true) :
    WalletBackend.save env fs w salt =
      (SUCCESS, fs.update w.filename
        (IS_A_WALLET_IDENTIFIER ++ salt ++
          cbcEncrypt env.cipher.encB (env.kdf w.password salt) salt
            (IS_CORRECT_PASSWORD_IDENTIFIER ++ env.serialize w))) ∧
    (WalletBackend.save env fs w salt).2 w.filename =
      some (IS_A_WALLET_IDENTIFIER ++ salt ++
        cbcEncrypt env.cipher.encB (env.kdf w.password salt) salt
          (IS_CORRECT_PASSWORD_IDENTIFIER ++ env.serialize w)) ∧
    (∀ n, n ≠ w.filename → (WalletBackend.save env fs w salt).2 n = fs n) := by
  unfold WalletBackend.save saveBytes
  rw [if_pos hw]
  refine ⟨rfl, ?_, ?_⟩
  · simp [FS.update]
  · intro n hn
    simp [FS.update, hn]

/-- Witness for C3 at a concrete environment, file system and wallet. -/
theorem save_writes_layout_witness :
    (WalletBackend.save
        { addressFromPrivateKeys := fun _ _ => "A",
          generateViewFromSpend := fun k => k,
          cipher := toyCipher, kdf := toyKdf,
          serialize := fun _ => [], writable := fun _ => true,
          daemonOk := true, freshSalt := List.replicate 16 0 }
        (fun _ => none) WalletBackend.empty (List.replicate 16 0)).2 "" =
      some (IS_A_WALLET_IDENTIFIER ++ List.replicate 16 0 ++
        cbcEncrypt toyCipher.encB (toyKdf [] (List.replicate 16 0))
          (List.replicate 16 0) (IS_CORRECT_PASSWORD_IDENTIFIER ++ [])) :=
  (save_writes_layout
    { addressFromPrivateKeys := fun _ _ => "A",
      generateViewFromSpend := fun k => k,
      cipher := toyCipher, kdf := toyKdf,
      serialize := fun _ => [], writable := fun _ => true,
      daemonOk := true, freshSalt := List.replicate 16 0 }
    (fun _ => none) WalletBackend.empty (List.replicate 16 0) rfl).2.1

/-- C5: openWallet maps failures to errors in order: a file-type magic
failure (buffer too small or mismatched) yields NOT_A_WALLET_FILE; a
remaining buffer shorter than the 16-byte salt yields
WALLET_FILE_CORRUPTED; after decryption, a decrypted plaintext shorter than
the password identifier yields WALLET_FILE_CORRUPTED and a mismatched one
yields WRONG_PASSWORD; only then is the remainder the JSON payload. -/
theorem openWallet_error_order (C : BlockCipher) (kdf : Kdf)
    (fileData password g : List Nat) :
    (fileData.take IS_A_WALLET_IDENTIFIER.length ≠ IS_A_WALLET_IDENTIFIER →
      openWalletBytes C kdf fileData password = .err NOT_A_WALLET_FILE) ∧
    (∀ rest, fileData = IS_A_WALLET_IDENTIFIER ++ rest → rest.length < 16 →
      openWalletBytes C kdf fileData password = .err WALLET_FILE_CORRUPTED) ∧
    (∀ rest, fileData = IS_A_WALLET_IDENTIFIER ++ rest → 16 ≤ rest.length →
      cbcDecrypt C.decB (kdf password (rest.take 16)) (rest.take 16)
        (rest.drop 16) = some g →
      ((g.length < IS_CORRECT_PASSWORD_IDENTIFIER.length →
         openWalletBytes C kdf fileData password = .err WALLET_FILE_CORRUPTED) ∧
       (IS_CORRECT_PASSWORD_IDENTIFIER.length ≤ g.length →
         g.take IS_CORRECT_PASSWORD_IDENTIFIER.length ≠
           IS_CORRECT_PASSWORD_IDENTIFIER →
         openWalletBytes C kdf fileData password = .err WRONG_PASSWORD) ∧
       (∀ payload, g = IS_CORRECT_PASSWORD_IDENTIFIER ++ payload →
         openWalletBytes C kdf fileData password = .ok payload))) := by
  refine ⟨?_, ?_, ?_⟩
  · intro hne
    unfold openWalletBytes
    rw [hasMagicIdentifier_eq]
    by_cases h1 : fileData.length < IS_A_WALLET_IDENTIFIER.length
    · rw [if_pos h1]
      simp
    · rw [if_neg h1, if_neg hne]
      simp
  · rintro rest rfl hlt
    unfold openWalletBytes
    rw [hasMagicIdentifier_append]
    simp [hlt]
  · rintro rest rfl h16 hdecr
    have hsalt : (rest.take 16).length = 16 := by
      simp only [List.length_take]
      omega
    have hsplit : IS_A_WALLET_IDENTIFIER ++ rest =
        IS_A_WALLET_IDENTIFIER ++ (rest.take 16 ++ rest.drop 16) := by
      rw [List.take_append_drop]
    refine ⟨?_, ?_, ?_⟩
    · intro hshort
      rw [hsplit, openWalletBytes_decrypt_some C kdf _ _ password g hsalt hdecr,
        hasMagicIdentifier_eq, if_pos hshort]
      simp
    · intro hle hne
      have h2 : ¬ (g.take IS_CORRECT_PASSWORD_IDENTIFIER.length =
          IS_CORRECT_PASSWORD_IDENTIFIER) := hne
      rw [hsplit, openWalletBytes_decrypt_some C kdf _ _ password g hsalt hdecr,
        hasMagicIdentifier_eq, if_neg (Nat.not_lt.mpr hle), if_neg h2]
      simp
    · rintro payload rfl
      rw [hsplit, openWalletBytes_decrypt_some C kdf _ _ password _ hsalt hdecr,
        hasMagicIdentifier_append]
      simp

/-- Witness for C5: a non-wallet file, a truncated file, and a well-formed
container opened with the correct password. -/
theorem openWallet_error_order_witness :
    openWalletBytes toyCipher toyKdf [0] [] = .err NOT_A_WALLET_FILE ∧
    openWalletBytes toyCipher toyKdf (IS_A_WALLET_IDENTIFIER ++ [1, 2, 3]) [] =
      .err WALLET_FILE_CORRUPTED ∧
    openWalletBytes toyCipher toyKdf
      (IS_A_WALLET_IDENTIFIER ++ (List.replicate 16 0 ++
        cbcEncrypt toyCipher.encB [1] (List.replicate 16 0)
          (IS_CORRECT_PASSWORD_IDENTIFIER ++ [7, 8]))) [1] = .ok [7, 8] := by
  have hsl : (List.replicate 16 (0 : Nat)).length = 16 := by simp
  refine ⟨(openWallet_error_order toyCipher toyKdf [0] [] []).1 (by decide),
    (openWallet_error_order toyCipher toyKdf _ [] []).2.1 [1, 2, 3] rfl
      (by decide), ?_⟩
  refine ((openWallet_error_order toyCipher toyKdf _ [1]
      (IS_CORRECT_PASSWORD_IDENTIFIER ++ [7, 8])).2.2
      (List.replicate 16 0 ++
        cbcEncrypt toyCipher.encB [1] (List.replicate 16 0)
          (IS_CORRECT_PASSWORD_IDENTIFIER ++ [7, 8])) rfl ?_ ?_).2.2 [7, 8] rfl
  · rw [List.length_append, hsl]
    omega
  · rw [List.take_left' hsl, List.drop_left' hsl]
    exact cbc_roundtrip toyCipher [1] (toyCipher_dec [1]) (toyCipher_len [1])
      (List.replicate 16 0) (IS_CORRECT_PASSWORD_IDENTIFIER ++ [7, 8]) hsl

lemma hasMagicIdentifier_success (data magic : List Nat) (e1 e2 : WalletError)
    (he1 : e1 ≠ SUCCESS) (he2 : e2 ≠ SUCCESS)
    (h : (hasMagicIdentifier data magic e1 e2).1 = SUCCESS) :
    data.take magic.length = magic ∧
    (hasMagicIdentifier data magic e1 e2).2 = data.drop magic.length := by
  rw [hasMagicIdentifier_eq] at h ⊢
  by_cases h1 : data.length < magic.length
  · rw [if_pos h1] at h
    exact absurd h he1
  · by_cases h2 : data.take magic.length = magic
    · rw [if_neg h1, if_pos h2]
      exact ⟨h2, rfl⟩
    · rw [if_neg h1, if_neg h2] at h
      exact absurd h he2

/-- C2 (amended): opening a container saved with password P using a
password P' determines the outcome by what CBC/PKCS#7 decryption under the
key derived from P' makes of the ciphertext body.  When that decryption
fails (invalid pad byte — the typical case for a wrong key) the decryption
filter's exception escapes and no error is returned at all; when it yields
a plaintext g, a g shorter than the password identifier gives
WALLET_FILE_CORRUPTED, a mismatched identifier gives WRONG_PASSWORD, and
the call returns success only when g begins with the complete password
identifier. -/
theorem openWallet_wrong_password_cases (C : BlockCipher) (kdf : Kdf)
    (S password password' salt g : List Nat) (hsalt : salt.length = 16)
    (hne : password' ≠ password) :
    (cbcDecrypt C.decB (kdf password' salt) salt
        (cbcEncrypt C.encB (kdf password salt) salt
          (IS_CORRECT_PASSWORD_IDENTIFIER ++ S)) = none →
      openWalletBytes C kdf (saveBytes C kdf S password salt) password' =
        OpenResult.threw) ∧
    (cbcDecrypt C.decB (kdf password' salt) salt
        (cbcEncrypt C.encB (kdf password salt) salt
          (IS_CORRECT_PASSWORD_IDENTIFIER ++ S)) = some g →
      ((g.length < IS_CORRECT_PASSWORD_IDENTIFIER.length →
          openWalletBytes C kdf (saveBytes C kdf S password salt) password' =
            OpenResult.err WALLET_FILE_CORRUPTED) ∧
       (IS_CORRECT_PASSWORD_IDENTIFIER.length ≤ g.length →
          g.take IS_CORRECT_PASSWORD_IDENTIFIER.length ≠
            IS_CORRECT_PASSWORD_IDENTIFIER →
          openWalletBytes C kdf (saveBytes C kdf S password salt) password' =
            OpenResult.err WRONG_PASSWORD) ∧
       (∀ payload,
          openWalletBytes C kdf (saveBytes C kdf S password salt) password' =
            OpenResult.ok payload →
          g = IS_CORRECT_PASSWORD_IDENTIFIER ++ payload))) := by
  have hfile : saveBytes C kdf S password salt =
      IS_A_WALLET_IDENTIFIER ++ (salt ++ cbcEncrypt C.encB (kdf password salt)
        salt (IS_CORRECT_PASSWORD_IDENTIFIER ++ S)) := by
    unfold saveBytes
    rw [List.append_assoc]
  refine ⟨?_, ?_⟩
  · intro hnone
    rw [hfile]
    exact openWalletBytes_decrypt_none C kdf _ _ _ hsalt hnone
  · intro hdecr
    refine ⟨?_, ?_, ?_⟩
    · intro hshort
      rw [hfile, openWalletBytes_decrypt_some C kdf _ _ _ g hsalt hdecr,
        hasMagicIdentifier_eq, if_pos hshort]
      simp
    · intro hle hneq
      rw [hfile, openWalletBytes_decrypt_some C kdf _ _ _ g hsalt hdecr,
        hasMagicIdentifier_eq, if_neg (Nat.not_lt.mpr hle), if_neg hneq]
      simp
    · intro payload hok
      rw [hfile, openWalletBytes_decrypt_some C kdf _ _ _ g hsalt hdecr] at hok
      by_cases hc : (hasMagicIdentifier g IS_CORRECT_PASSWORD_IDENTIFIER
          WALLET_FILE_CORRUPTED WRONG_PASSWORD).1 = SUCCESS
      · rw [if_neg (not_not_intro hc)] at hok
        obtain ⟨htake, hdropp⟩ := hasMagicIdentifier_success g
          IS_CORRECT_PASSWORD_IDENTIFIER WALLET_FILE_CORRUPTED WRONG_PASSWORD
          (by decide) (by decide) hc
        injection hok with h2
        rw [← List.take_append_drop IS_CORRECT_PASSWORD_IDENTIFIER.length g,
          htake, ← h2, hdropp]
      · rw [if_pos hc] at hok
        exact absurd hok (by simp)

/-- Witness for C2 (amended): a concrete container saved with password
`[1]` and opened with password `[2]`; here the garbled plaintext unpads
cleanly and fails the identifier check, giving WRONG_PASSWORD. -/
theorem openWallet_wrong_password_cases_witness :
    openWalletBytes toyCipher toyKdf
      (saveBytes toyCipher toyKdf [] [1] (List.replicate 16 0)) [2] =
      OpenResult.err WRONG_PASSWORD :=
  ((openWallet_wrong_password_cases toyCipher toyKdf [] [1] [2]
      (List.replicate 16 0)
      [74, 83, 67, 79, 82, 82, 69, 67, 84, 80, 65, 83, 83, 87, 79, 82, 71]
      (by simp) (by decide)).2 (by decide)).2.1 (by decide) (by decide)

/-- Counterexample for C2 as stated: a container saved with password
`[0,...,0]` (16 zero bytes) opened with the different password
`[0,...,0,255]`.  The garbled plaintext's PKCS#7 pad byte is 240, so the
CryptoPP decryption filter throws and the call yields neither
WRONG_PASSWORD nor WALLET_FILE_CORRUPTED (and not success) — no error is
returned at all. -/
theorem openWallet_wrong_password_throws_cex :
    (List.replicate 15 0 ++ [255]) ≠ List.replicate 16 (0 : Nat) ∧
    openWalletBytes toyCipher toyKdf
      (saveBytes toyCipher toyKdf [] (List.replicate 16 0)
        (List.replicate 16 0))
      (List.replicate 15 0 ++ [255]) = OpenResult.threw := by
  refine ⟨by decide, by decide⟩

/-- C6: when a file already exists at the target path, each of the four
creation entry points fails with WALLET_FILE_ALREADY_EXISTS with no side
effects: no key material is generated or touched (the event trace is
empty) and the file system — in particular the existing file's contents —
is returned unchanged. -/
theorem creation_guards_existing_file (env : Env) (fs : FS) (filename : String)
    (c : List Nat) (hex : fs filename = some c)
    (password generatedSpendKey privateSpendKey privateViewKey : List Nat)
    (mnemonicKey : Option (List Nat)) (scanHeight : Nat) (address : String) :
    createWallet env generatedSpendKey fs filename password =
      (WALLET_FILE_ALREADY_EXISTS, WalletBackend.empty, fs, []) ∧
    importWalletFromSeed env mnemonicKey fs filename password scanHeight =
      (WALLET_FILE_ALREADY_EXISTS, WalletBackend.empty, fs, []) ∧
    importWalletFromKeys env privateSpendKey privateViewKey fs filename
      password scanHeight =
      (WALLET_FILE_ALREADY_EXISTS, WalletBackend.empty, fs, []) ∧
    importViewWallet env privateViewKey address fs filename password
      scanHeight =
      (WALLET_FILE_ALREADY_EXISTS, WalletBackend.empty, fs, []) := by
  have hchk : checkNewWalletFilename env.writable fs filename =
      (WALLET_FILE_ALREADY_EXISTS, fs) := by
    unfold checkNewWalletFilename
    rw [if_pos (by simp [hex])]
  refine ⟨?_, ?_, ?_, ?_⟩
  · unfold createWallet
    rw [hchk]
    simp
  · unfold importWalletFromSeed
    rw [hchk]
    simp
  · unfold importWalletFromKeys
    rw [hchk]
    simp
  · unfold importViewWallet
    rw [hchk]
    simp

/-- Witness for C6 at a concrete environment and an occupied path. -/
theorem creation_guards_existing_file_witness :
    createWallet toyEnv [9] oneFileFS "w" [] =
      (WALLET_FILE_ALREADY_EXISTS, WalletBackend.empty, oneFileFS, []) ∧
    importWalletFromSeed toyEnv none oneFileFS "w" [] 0 =
      (WALLET_FILE_ALREADY_EXISTS, WalletBackend.empty, oneFileFS, []) ∧
    importWalletFromKeys toyEnv [4] [5] oneFileFS "w" [] 0 =
      (WALLET_FILE_ALREADY_EXISTS, WalletBackend.empty, oneFileFS, []) ∧
    importViewWallet toyEnv [5] "B" oneFileFS "w" [] 0 =
      (WALLET_FILE_ALREADY_EXISTS, WalletBackend.empty, oneFileFS, []) :=
  creation_guards_existing_file toyEnv oneFileFS "w" [1, 2, 3] rfl
    [] [9] [4] [5] none 0 "B"

/-- C10: when no file exists at a writable target path, the filename check
itself creates an empty file there (the `ofstream` probe), so a failure in
a later step — an invalid mnemonic in importWalletFromSeed — returns with
an empty file left on disk at the target path. -/
theorem filename_check_creates_empty_file (env : Env) (fs : FS)
    (filename : String) (password : List Nat) (scanHeight : Nat)
    (hnone : fs filename = none) (hw : env.writable filename = true) :
    checkNewWalletFilename env.writable fs filename =
      (SUCCESS, fs.update filename []) ∧
    (fs.update filename []) filename = some [] ∧
    importWalletFromSeed env none fs filename password scanHeight =
      (INVALID_MNEMONIC, WalletBackend.empty, fs.update filename [],
        [Event.decodeMnemonic]) ∧
    (importWalletFromSeed env none fs filename password scanHeight).2.2.1
      filename = some [] := by
  have hchk : checkNewWalletFilename env.writable fs filename =
      (SUCCESS, fs.update filename []) := by
    unfold checkNewWalletFilename
    rw [if_neg (by simp [hnone]), if_pos hw]
  have h3 : importWalletFromSeed env none fs filename password scanHeight =
      (INVALID_MNEMONIC, WalletBackend.empty, fs.update filename [],
        [Event.decodeMnemonic]) := by
    unfold importWalletFromSeed
    rw [hchk]
    simp
  refine ⟨hchk, by simp [FS.update], h3, ?_⟩
  rw [h3]
  simp [FS.update]

/-- Witness for C10 at a concrete environment and an empty file system. -/
theorem filename_check_creates_empty_file_witness :
    checkNewWalletFilename toyEnv.writable emptyFS "w" =
      (SUCCESS, FS.update emptyFS "w" []) ∧
    (FS.update emptyFS "w" []) "w" = some [] ∧
    importWalletFromSeed toyEnv none emptyFS "w" [] 0 =
      (INVALID_MNEMONIC, WalletBackend.empty, FS.update emptyFS "w" [],
        [Event.decodeMnemonic]) ∧
    (importWalletFromSeed toyEnv none emptyFS "w" [] 0).2.2.1 "w" =
      some [] :=
  filename_check_creates_empty_file toyEnv emptyFS "w" [] 0 rfl rfl

/-- C9: with a daemon handle present, init constructs the synchronizer
(when none was loaded from file) or reattaches the loaded one, and starts
its background execution, before returning — even when the daemon
handshake failed and the returned result is FAILED_TO_INIT_DAEMON. -/
theorem init_starts_synchronizer (daemonOk : Bool) (w : WalletBackend)
    (h : w.hasDaemon = true) :
    WalletBackend.init daemonOk w =
      InitResult.ret (if daemonOk then SUCCESS else FAILED_TO_INIT_DAEMON)
        { w with walletSynchronizer := some { started := true } }
        ([Event.daemonHandshake] ++
          (if w.walletSynchronizer = none then [Event.syncConstructed]
           else [Event.syncReattached]) ++ [Event.syncStarted]) := by
  unfold WalletBackend.init initCore
  rw [if_pos h]
  cases hs : w.walletSynchronizer with
  | none => simp [hs]
  | some sync => simp [hs]

/-- Witness for C9: a concrete wallet with a daemon handle and no loaded
synchronizer, with the handshake reporting a connection error. -/
theorem init_starts_synchronizer_witness :
    WalletBackend.init false { WalletBackend.empty with hasDaemon := true } =
      InitResult.ret FAILED_TO_INIT_DAEMON
        { WalletBackend.empty with
          hasDaemon := true,
          walletSynchronizer := some { started := true } }
        [Event.daemonHandshake, Event.syncConstructed, Event.syncStarted] := by
  have h := init_starts_synchronizer false
    { WalletBackend.empty with hasDaemon := true } rfl
  simpa using h

/-- C7 (amended): a successful view-wallet import constructs the wallet
with the sentinel all-zero private spend key and the view-wallet flag set,
but the public-address computation from the key pair is NOT skipped: the
stored address is the output of addressFromPrivateKeys applied to the null
spend key and the supplied view key, and the caller-supplied address
string is ignored — the import's result does not depend on it at all. -/
theorem importViewWallet_fields (env : Env) (privateViewKey : List Nat)
    (a1 a2 : String) (fs : FS) (filename : String) (password : List Nat)
    (scanHeight : Nat) (hnone : fs filename = none)
    (hw : env.writable filename = true) (hd : env.daemonOk = true) :
    ((importViewWallet env privateViewKey a1 fs filename password
        scanHeight).2.1.subWallets.map SubWallets.privateSpendKey =
      some NULL_SECRET_KEY) ∧
    ((importViewWallet env privateViewKey a1 fs filename password
        scanHeight).2.1.isViewWallet = true) ∧
    ((importViewWallet env privateViewKey a1 fs filename password
        scanHeight).2.1.subWallets.map SubWallets.address =
      some (env.addressFromPrivateKeys NULL_SECRET_KEY privateViewKey)) ∧
    importViewWallet env privateViewKey a1 fs filename password scanHeight =
      importViewWallet env privateViewKey a2 fs filename password
        scanHeight := by
  have hchk : checkNewWalletFilename env.writable fs filename =
      (SUCCESS, fs.update filename []) := by
    unfold checkNewWalletFilename
    rw [if_neg (by simp [hnone]), if_pos hw]
  refine ⟨?_, ?_, ?_, rfl⟩ <;>
  · unfold importViewWallet runInitAndSave initCore mkWalletBackend
      WalletBackend.save
    rw [hchk]
    simp [hd, hw]

/-- Counterexample for C7 as stated: a concrete view-wallet import with
caller-supplied address string "B" succeeds but the wallet's stored
address is "A" — the output of the address computation from the null spend
key and the view key — not the caller-supplied string, which the source
never reads. -/
theorem importViewWallet_address_cex :
    (importViewWallet toyEnv [3] "B" emptyFS "w" [] 0).1 = SUCCESS ∧
    (importViewWallet toyEnv [3] "B" emptyFS "w" [] 0).2.1.subWallets.map
      SubWallets.address = some "A" ∧
    some "A" ≠ some "B" := by
  refine ⟨by decide, by decide, by decide⟩

/-- Witness for C7 (amended) at a concrete environment and two different
caller-supplied addresses. -/
theorem importViewWallet_fields_witness :
    ((importViewWallet toyEnv [3] "B" emptyFS "w" [] 0).2.1.subWallets.map
      SubWallets.privateSpendKey = some NULL_SECRET_KEY) ∧
    ((importViewWallet toyEnv [3] "B" emptyFS "w" [] 0).2.1.isViewWallet =
      true) ∧
    ((importViewWallet toyEnv [3] "B" emptyFS "w" [] 0).2.1.subWallets.map
      SubWallets.address =
      some (toyEnv.addressFromPrivateKeys NULL_SECRET_KEY [3])) ∧
    importViewWallet toyEnv [3] "B" emptyFS "w" [] 0 =
      importViewWallet toyEnv [3] "X" emptyFS "w" [] 0 :=
  importViewWallet_fields toyEnv [3] "B" "X" emptyFS "w" [] 0 rfl rfl rfl

/-- C8 (amended): init throws exactly when no daemon handle is set — that
part matches the claim — and save always returns an explicit SUCCESS or
INVALID_WALLET_FILENAME result; but openWallet is not exception-free: it
throws (the CryptoPP InvalidCiphertext exception escapes uncaught) exactly
when the file passes the file-type magic and salt-length checks and the
ciphertext body fails CBC/PKCS#7 decryption — the typical outcome under a
wrong password, or under a truncated ciphertext. -/
theorem public_boundary_throw_characterization (daemonOk : Bool)
    (w w2 : WalletBackend) (C : BlockCipher) (kdf : Kdf)
    (fileData password : List Nat) (env : Env) (fs : FS) (salt : List Nat) :
    (WalletBackend.init daemonOk w = InitResult.threw ↔
      w.hasDaemon = false) ∧
    (openWalletBytes C kdf fileData password = OpenResult.threw ↔
      ∃ rest, fileData = IS_A_WALLET_IDENTIFIER ++ rest ∧ 16 ≤ rest.length ∧
        cbcDecrypt C.decB (kdf password (rest.take 16)) (rest.take 16)
          (rest.drop 16) = none) ∧
    ((WalletBackend.save env fs w2 salt).1 = SUCCESS ∨
      (WalletBackend.save env fs w2 salt).1 = INVALID_WALLET_FILENAME) := by
  refine ⟨?_, ⟨?_, ?_⟩, ?_⟩
  · unfold WalletBackend.init
    cases hd : w.hasDaemon <;> simp
  · intro ht
    unfold openWalletBytes at ht
    rw [hasMagicIdentifier_eq] at ht
    by_cases h1 : fileData.length < IS_A_WALLET_IDENTIFIER.length
    · rw [if_pos h1] at ht
      simp at ht
    · rw [if_neg h1] at ht
      by_cases h2 : fileData.take IS_A_WALLET_IDENTIFIER.length =
          IS_A_WALLET_IDENTIFIER
      · rw [if_pos h2] at ht
        simp only [ne_eq, not_true_eq_false, if_false, ite_false] at ht
        by_cases hlen : (fileData.drop IS_A_WALLET_IDENTIFIER.length).length < 16
        · rw [if_pos hlen] at ht
          simp at ht
        · rw [if_neg hlen] at ht
          cases hd : cbcDecrypt C.decB
              (kdf password ((fileData.drop IS_A_WALLET_IDENTIFIER.length).take 16))
              ((fileData.drop IS_A_WALLET_IDENTIFIER.length).take 16)
              ((fileData.drop IS_A_WALLET_IDENTIFIER.length).drop 16) with
          | none =>
            refine ⟨fileData.drop IS_A_WALLET_IDENTIFIER.length, ?_,
              Nat.not_lt.mp hlen, hd⟩
            conv_lhs => rw [← List.take_append_drop
              IS_A_WALLET_IDENTIFIER.length fileData]
            rw [h2]
          | some g =>
            rw [hd] at ht
            simp [ite_eq_iff] at ht
      · rw [if_neg h2] at ht
        simp at ht
  · rintro ⟨rest, rfl, h16, hnone⟩
    have hsalt : (rest.take 16).length = 16 := by
      simp only [List.length_take]
      omega
    have hsplit : IS_A_WALLET_IDENTIFIER ++ rest =
        IS_A_WALLET_IDENTIFIER ++ (rest.take 16 ++ rest.drop 16) := by
      rw [List.take_append_drop]
    rw [hsplit]
    exact openWalletBytes_decrypt_none C kdf _ _ _ hsalt hnone
  · unfold WalletBackend.save
    by_cases hw : env.writable w2.filename = true
    · rw [if_pos hw]
      left
      rfl
    · rw [if_neg hw]
      right
      rfl

/-- Counterexample for C8 as stated: openWallet on a crafted file — valid
file-type magic, a 16-byte salt, then a 1-byte ciphertext body — hits the
CryptoPP InvalidCiphertext exception (the body is not a whole number of
blocks) and the exception escapes; so init's missing-daemon throw is not
the only way a public operation fails to return an explicit result. -/
theorem openWallet_throws_cex :
    openWalletBytes toyCipher toyKdf
      (IS_A_WALLET_IDENTIFIER ++ List.replicate 16 0 ++ [0]) [] =
      OpenResult.threw := by decide

/-- Witness for C8 (amended) at concrete arguments. -/
theorem public_boundary_throw_characterization_witness :
    (WalletBackend.init true WalletBackend.empty = InitResult.threw ↔
      WalletBackend.empty.hasDaemon = false) ∧
    (openWalletBytes toyCipher toyKdf [] [] = OpenResult.threw ↔
      ∃ rest, ([] : List Nat) = IS_A_WALLET_IDENTIFIER ++ rest ∧
        16 ≤ rest.length ∧
        cbcDecrypt toyCipher.decB (toyKdf [] (rest.take 16)) (rest.take 16)
          (rest.drop 16) = none) ∧
    ((WalletBackend.save toyEnv emptyFS WalletBackend.empty []).1 = SUCCESS ∨
      (WalletBackend.save toyEnv emptyFS WalletBackend.empty []).1 =
        INVALID_WALLET_FILENAME) :=
  public_boundary_throw_characterization true WalletBackend.empty
    WalletBackend.empty toyCipher toyKdf [] [] toyEnv emptyFS []
